import Mathlib

/-!
Verification development for the FastApi-RESTful repository: a shallow
embedding of the class-based-view composition engine, the lightweight
resource dispatcher, the periodic-task runner and the timing middleware,
together with theorems settling the specification claims.
-/

namespace FastApiRestful

/-- JSON-like runtime values exchanged between handlers and the host. -/
inductive Value where
  | nullV : Value
  | boolV : Bool → Value
  | intV : Int → Value
  | strV : String → Value
  | listV : List Value → Value
  | objV : List (String × Value) → Value

/-- One segment of a path pattern: a literal, a single-segment parameter
`{name}`, or a rest-of-path parameter `{name:path}`. -/
inductive Seg where
  | lit : String → Seg
  | param : String → Seg
  | pathParam : String → Seg
deriving DecidableEq

/-- Modelled from the spec: path-pattern matching used by the host router
(the repository's `cbv.py` and `cbv_base.py` are not under src/).  A literal
segment matches itself, `{name}` captures exactly one segment, and
`{name:path}` captures the whole remaining path.  Returns the captured
(name, value) bindings on success. -/
def matchPath : List Seg → List String → Option (List (String × String))
  | [], [] => some []
  | Seg.lit s :: ps, x :: xs => if x = s then matchPath ps xs else none
  | Seg.param n :: ps, x :: xs => (matchPath ps xs).map (fun bs => (n, x) :: bs)
  | [Seg.pathParam n], xs => some [(n, String.intercalate "/" xs)]
  | _, _ => none

/-- Looks a key up in a parameter list (first binding wins, as each name is
bound at most once by `matchPath`). -/
def lookupParam (ps : List (String × String)) (key : String) : Option String :=
  (ps.find? (fun kv => kv.1 = key)).map (fun kv => kv.2)

/-! ## Timing middleware (`fastapi_restful/timing.py`) -/

/-- Decides whether `needle` occurs as a substring of `hay`, the model of
Python's `needle in hay` on strings. -/
def strContains (hay needle : String) : Bool :=
  decide (needle.data <:+: hay.data)

/-- The `_TimingStats` object as far as `record_timing` observes it: its
metric name and the `silent` flag computed in `_TimingStats.__init__`. -/
structure TimingStats where
  name : Option String
  silent : Bool

/-- `_TimingStats.__init__`: `silent` is set exactly when both `name` and
`exclude` are present and `exclude` occurs inside `name`. -/
def mkTimingStats (name exclude : Option String) : TimingStats :=
  { name := name
    silent :=
      match name, exclude with
      | some n, some e => strContains n e
      | _, _ => false }

/-- A timing record as emitted by `_TimingStats.emit`: the metric name and
the optional note appended to the message. -/
structure TimingRecord where
  name : Option String
  note : Option String
deriving DecidableEq

/-- `_TimingStats.emit`: emits one record unless the stats object is
silent. -/
def TimingStats.emit (t : TimingStats) (note : Option String) : List TimingRecord :=
  if t.silent then [] else [⟨t.name, note⟩]

/-- The possible runtime values of the `__fastapi_utils_timer__` attribute
on `request.state`: Python `None`, a `_TimingStats` instance, or any other
object. -/
inductive TimerAttrVal where
  | noneVal : TimerAttrVal
  | timerVal : TimingStats → TimerAttrVal
  | otherVal : TimerAttrVal

/-- `getattr(request.state, TIMER_ATTRIBUTE, None)`: an absent attribute
reads as `None`. -/
def getattrTimer (st : Option TimerAttrVal) : TimerAttrVal :=
  st.getD TimerAttrVal.noneVal

/-- `record_timing(request, note)` from `timing.py`: raises `ValueError`
when the timer attribute reads as `None`, raises `ValueError` when it is
present but not a `_TimingStats` instance, and otherwise emits via the
timer.  Errors model `ValueError` with its message. -/
def record_timing (st : Option TimerAttrVal) (note : Option String) :
    Except String (List TimingRecord) :=
  match getattrTimer st with
  | TimerAttrVal.noneVal => Except.error "No timer present on request"
  | TimerAttrVal.timerVal t => Except.ok (t.emit note)
  | TimerAttrVal.otherVal => Except.error "Timer should be of an instance of TimingStats"

/-! ## Composition engine (`fastapi_restful/cbv.py`, absent from src/)

All definitions in this section are modelled from the spec, sections 3, 4
and 6, because the composition engine's implementation file is not under
src/ (only its tests are). -/

/-- Modelled from the spec: an identifier for a dependency-provider
function registered with the host resolver. -/
abbrev ProviderId := String

/-- Modelled from the spec: the default expression of a constructor
parameter or class-level field — either a dependency-provider annotation
or a plain literal default. -/
inductive DefaultExpr where
  | provider : ProviderId → DefaultExpr
  | literal : Value → DefaultExpr

/-- Modelled from the spec: a constructor parameter as declared by the
class author (name plus optional default expression). -/
structure CtorParam where
  name : String
  default : Option DefaultExpr

/-- Modelled from the spec: a class-level annotated field; `value` is
`none` for a bare type annotation with no assigned value. -/
structure FieldDecl where
  name : String
  value : Option DefaultExpr

/-- Modelled from the spec: response metadata `{response_schema,
envelope_type}` attached by `shape_response` / `set_responses`. -/
structure RespMeta where
  responseSchema : String
  envelope : Option String
deriving DecidableEq

/-- Modelled from the spec: a route spec `{verb, path_pattern}` attached
to one method by a route decorator. -/
structure RouteSpec where
  verb : String
  path : List Seg
deriving DecidableEq

/-- An attribute map of a per-request instance; assignment appends, and
lookup returns the most recent binding. -/
abbrev AttrMap := List (String × Value)

/-- Attribute lookup on an instance: the last assignment to a name wins. -/
def lookupAttr : AttrMap → String → Option Value
  | [], _ => none
  | (k, v) :: rest, key =>
    match lookupAttr rest key with
    | some w => some w
    | none => if key = k then some v else none

/-- Modelled from the spec: a per-request instance, carrying an object
identity (for the shared-`self` invariant) and its attributes. -/
structure Instance where
  objId : Nat
  attrs : AttrMap

/-- Modelled from the spec: one method of a composed class — its name, the
ordered route specs its decorators attached (textual order), optional
`shape_response` metadata, and its body as a function of the resolved
instance and the resolved path-and-query parameters. -/
structure MethodDef where
  name : String
  routeSpecs : List RouteSpec
  respMeta : Option RespMeta
  body : Instance → List (String × String) → Value

/-- Modelled from the spec: a class as the author declares it — ordered
class-level fields, ordered constructor parameters, the constructor body
(mapping resolved constructor arguments to the attributes it assigns), and
the methods in class-body declaration order. -/
structure ClassDef where
  fields : List FieldDecl
  ctorParams : List CtorParam
  init : List (String × Value) → AttrMap
  methods : List MethodDef

/-- Modelled from the spec: a constructor parameter recognised as
injectable (it carried a provider annotation). -/
structure ConstructorDependency where
  paramName : String
  provider : ProviderId

/-- Modelled from the spec: a class-level field recognised as injectable
(it carried a provider annotation as its assigned value). -/
structure FieldDependency where
  fieldName : String
  provider : ProviderId

/-- Modelled from the spec (DependencyBinder): a constructor parameter is
a dependency exactly when its default expression is a provider. -/
def bindCtorDeps (ps : List CtorParam) : List ConstructorDependency :=
  ps.filterMap (fun p =>
    match p.default with
    | some (DefaultExpr.provider pr) => some ⟨p.name, pr⟩
    | _ => none)

/-- Modelled from the spec (DependencyBinder): a field is a dependency
exactly when its assigned value is a provider; a bare annotation with no
value is excluded. -/
def bindFieldDeps (fs : List FieldDecl) : List FieldDependency :=
  fs.filterMap (fun f =>
    match f.value with
    | some (DefaultExpr.provider pr) => some ⟨f.name, pr⟩
    | _ => none)

/-- Modelled from the spec: the `ClassDescriptor` built once, statically,
at class-definition time. -/
structure ClassDescriptor where
  cls : ClassDef
  ctorDeps : List ConstructorDependency
  fieldDeps : List FieldDependency

/-- Modelled from the spec: static construction of the descriptor. -/
def buildDescriptor (c : ClassDef) : ClassDescriptor :=
  ⟨c, bindCtorDeps c.ctorParams, bindFieldDeps c.fields⟩

/-- The host per-request dependency resolver, specified only at its
boundary: it maps a provider to the value it resolves to. -/
abbrev Resolver := ProviderId → Value

/-- Modelled from the spec: the per-request scope — the instance cache,
the log of provider resolutions performed so far in this request, and a
counter issuing fresh object identities. -/
structure RequestScope where
  cache : Option Instance
  resolutionLog : List ProviderId
  nextId : Nat

/-- The scope at the start of a request: empty cache, empty log. -/
def RequestScope.start : RequestScope := ⟨none, [], 0⟩

/-- Modelled from the spec: resolving a list of providers through the host
resolver, logging each resolution. -/
def resolveDeps (host : Resolver) : List ProviderId → RequestScope →
    List Value × RequestScope
  | [], sc => ([], sc)
  | p :: ps, sc =>
    let sc1 : RequestScope := { sc with resolutionLog := sc.resolutionLog ++ [p] }
    let rest := resolveDeps host ps sc1
    (host p :: rest.1, rest.2)

/-- Modelled from the spec (InstanceActivator): constructing the instance
resolves every constructor dependency, runs the constructor body on the
resolved arguments, then resolves every field dependency and assigns it
onto the instance; the instance receives a fresh object identity. -/
def constructInstance (host : Resolver) (cd : ClassDescriptor)
    (sc : RequestScope) : Instance × RequestScope :=
  let cres := resolveDeps host (cd.ctorDeps.map (fun d => d.provider)) sc
  let args := (cd.ctorDeps.map (fun d => d.paramName)).zip cres.1
  let attrs0 := cd.cls.init args
  let fres := resolveDeps host (cd.fieldDeps.map (fun d => d.provider)) cres.2
  let attrs1 := attrs0 ++ (cd.fieldDeps.map (fun d => d.fieldName)).zip fres.1
  (⟨fres.2.nextId, attrs1⟩, { fres.2 with nextId := fres.2.nextId + 1 })

/-- Modelled from the spec (InstanceActivator): the hidden per-request
instance dependency — first resolution in a request constructs and caches,
subsequent resolutions return the cached instance. -/
def resolveInstance (host : Resolver) (cd : ClassDescriptor)
    (sc : RequestScope) : Instance × RequestScope :=
  match sc.cache with
  | some i => (i, sc)
  | none =>
    let r := constructInstance host cd sc
    (r.1, { r.2 with cache := some r.1 })

/-- Modelled from the spec: one entry of the `RouteTable` — pattern, verb,
the name of the method it adapts, the adapted method body, and the
response metadata forwarded to the host at registration. -/
structure RouteEntry where
  path : List Seg
  verb : String
  methodName : String
  body : Instance → List (String × String) → Value
  metadata : Option RespMeta

/-- Modelled from the spec (RouteDescriptorCollector + RouteTableMerger):
the route table lists, in class-body declaration order and, within one
method, in the textual order of its stacked decorators, one entry per
route spec; every entry of one method adapts the same body and carries the
method's response metadata. -/
def routeTableOf (c : ClassDef) : List RouteEntry :=
  c.methods.flatMap (fun m =>
    m.routeSpecs.map (fun s => ⟨s.path, s.verb, m.name, m.body, m.respMeta⟩))

/-- Modelled from the spec: composition-time failures of `compose_view`
and of the lightweight dispatcher's `register`. -/
inductive CompositionError where
  | noRoutedMethods : CompositionError
  | unsupportedRouteVerb : String → CompositionError
  | noVerbMethods : CompositionError
deriving DecidableEq

/-- The host router, specified only at its boundary: the verbs it
supports. -/
structure Router where
  supportedVerbs : List String

/-- Modelled from the spec (`compose_view`): fails immediately when the
class declares zero route-decorated methods or when any route spec names a
verb the router does not support; otherwise yields the declaration-order
route table. -/
def composeView (r : Router) (c : ClassDef) :
    Except CompositionError (List RouteEntry) :=
  if (c.methods.filter (fun m => !m.routeSpecs.isEmpty)).isEmpty then
    Except.error CompositionError.noRoutedMethods
  else
    match (routeTableOf c).find? (fun e => !(r.supportedVerbs.contains e.verb)) with
    | some e => Except.error (CompositionError.unsupportedRouteVerb e.verb)
    | none => Except.ok (routeTableOf c)

/-- An incoming request: verb, path segments, query parameters. -/
structure Request where
  verb : String
  pathSegs : List String
  query : List (String × String)

/-- Modelled from the spec (RouteTable matching): the earliest entry whose
verb and pattern match wins, regardless of pattern specificity. -/
def findRoute (table : List RouteEntry) (req : Request) :
    Option (RouteEntry × List (String × String)) :=
  match table with
  | [] => none
  | e :: rest =>
    if e.verb = req.verb then
      match matchPath e.path req.pathSegs with
      | some binds => some (e, binds)
      | none => findRoute rest req
    else findRoute rest req

/-- Modelled from the spec: dispatching one request — the first matching
entry's adapter resolves the shared per-request instance and calls the
underlying method with the resolved path and query parameters, returning
its result verbatim. -/
def dispatch (host : Resolver) (cd : ClassDescriptor)
    (table : List RouteEntry) (req : Request) (sc : RequestScope) :
    Option (Value × RequestScope) :=
  (findRoute table req).map (fun er =>
    let r := resolveInstance host cd sc
    (er.1.body r.1 (er.2 ++ req.query), r.2))

/-! ## Lightweight dispatcher (`fastapi_restful/cbv_base.py`, absent from src/)

Modelled from the spec, section 4.6, because the implementation file is
not under src/ (only its tests are). -/

/-- Modelled from the spec: the HTTP verb names the lightweight dispatcher
recognises as handler methods on a resource instance. -/
def httpVerbs : List String :=
  ["get", "post", "put", "delete", "patch", "head", "options"]

/-- Modelled from the spec: one verb-named method of a pre-constructed
resource instance, with optional `set_responses` metadata and its body as
a function of the instance attributes and the resolved parameters. -/
structure VerbMethod where
  verb : String
  respMeta : Option RespMeta
  body : AttrMap → List (String × String) → Value

/-- Modelled from the spec: a pre-constructed resource instance handed to
`register` / `Api.add_resource`: object identity, attributes, and its
verb-named methods. -/
structure ResourceInstance where
  objId : Nat
  attrs : AttrMap
  verbMethods : List VerbMethod

/-- Modelled from the spec: one route entry produced by the lightweight
dispatcher; `instId` records which instance the handler is bound to, and
`handler` invokes that instance's verb method on the resolved path and
query parameters. -/
structure ResourceEntry where
  path : List Seg
  verb : String
  instId : Nat
  metadata : Option RespMeta
  handler : List (String × String) → Value

/-- Modelled from the spec (`register(instance, *path_patterns)`): for
every HTTP-verb-named method present on the instance, for every supplied
path pattern, registers a handler invoking that exact instance's method;
a composition-time error when no verb-named method exists. -/
def addResource (inst : ResourceInstance) (patterns : List (List Seg)) :
    Except CompositionError (List ResourceEntry) :=
  let verbs := inst.verbMethods.filter (fun m => httpVerbs.contains m.verb)
  if verbs.isEmpty then
    Except.error CompositionError.noVerbMethods
  else
    Except.ok (verbs.flatMap (fun m =>
      patterns.map (fun p =>
        ⟨p, m.verb, inst.objId, m.respMeta, fun q => m.body inst.attrs q⟩)))

/-- Modelled from the spec: first-match routing over the lightweight
dispatcher's entries, in registration order. -/
def findResourceRoute (table : List ResourceEntry) (req : Request) :
    Option (ResourceEntry × List (String × String)) :=
  match table with
  | [] => none
  | e :: rest =>
    if e.verb = req.verb then
      match matchPath e.path req.pathSegs with
      | some binds => some (e, binds)
      | none => findResourceRoute rest req
    else findResourceRoute rest req

/-- Modelled from the spec: dispatching one request through the
lightweight dispatcher — the first matching entry's handler is invoked on
the resolved path and query parameters and its result returned verbatim;
the attached response metadata is not consulted at call time. -/
def dispatchResource (table : List ResourceEntry) (req : Request) :
    Option Value :=
  (findResourceRoute table req).map (fun er => er.1.handler (er.2 ++ req.query))

/-! ## Periodic-task runner (`fastapi_restful/tasks.py`, absent from src/)

Modelled from the spec's boundary description of the periodic-task
collaborator and the observable behaviour fixed by `tests/test_tasks.py`:
the wrapped task repeatedly invokes the underlying function, sleeping the
configured number of seconds after each invocation (one additional leading
sleep when `wait_first` is set), stops after `max_repetitions` invocations,
swallows exceptions unless `raise_exceptions` is set, in which case the
first exception propagates unchanged.  An unbounded `max_repetitions=None`
run is modelled by the repetition bound being an arbitrary fuel. -/

/-- An observable event of the periodic task: an `asyncio.sleep(seconds)`
call or one invocation of the wrapped function. -/
inductive TaskEv where
  | sleep : ℚ → TaskEv
  | invoke : TaskEv
deriving DecidableEq

/-- Modelled from the spec: the repetition loop.  Each iteration invokes
the wrapped function (call index `idx`); an exception is re-raised when
`raiseExceptions` is set and otherwise swallowed; the iteration ends with
a sleep.  `remaining` counts the repetitions still to run. -/
def repeatLoop (seconds : ℚ) (raiseExceptions : Bool)
    (calls : Nat → Except String Unit) :
    Nat → Nat → Except String (List TaskEv)
  | 0, _ => Except.ok []
  | remaining + 1, idx =>
    match calls idx with
    | Except.ok _ =>
      (repeatLoop seconds raiseExceptions calls remaining (idx + 1)).map
        (fun evs => TaskEv.invoke :: TaskEv.sleep seconds :: evs)
    | Except.error e =>
      if raiseExceptions then Except.error e
      else
        (repeatLoop seconds raiseExceptions calls remaining (idx + 1)).map
          (fun evs => TaskEv.invoke :: TaskEv.sleep seconds :: evs)

/-- Modelled from the spec: awaiting the task produced by
`repeat_every(seconds, wait_first, raise_exceptions, max_repetitions)` —
an optional leading sleep, then the repetition loop.  The result is the
trace of sleeps and invocations, or the first propagated exception. -/
def repeatEveryRun (seconds : ℚ) (waitFirst raiseExceptions : Bool)
    (calls : Nat → Except String Unit) (maxRepetitions : Nat) :
    Except String (List TaskEv) :=
  (repeatLoop seconds raiseExceptions calls maxRepetitions 0).map
    (fun evs => (if waitFirst then [TaskEv.sleep seconds] else []) ++ evs)

/-- The number of invocations of the wrapped function in a trace. -/
def invokeCount (evs : List TaskEv) : Nat :=
  evs.countP (fun e => decide (e = TaskEv.invoke))

/-! ## Concrete scenario classes from the spec's testable properties -/

/-- A host resolver resolving every provider to null; used where no
dependency is declared. -/
def nullHost : Resolver := fun _ => Value.nullV

/-- Scenario A, first method: `get_test` at `/test`, returning 1. -/
def scenarioAMethod1 : MethodDef where
  name := "get_test"
  routeSpecs := [⟨"get", [Seg.lit "test"]⟩]
  respMeta := none
  body := fun _ _ => Value.intV 1

/-- Scenario A, second method: `get_any` at `/{any}`, returning 2;
declared after `get_test` though alphabetically before it. -/
def scenarioAMethod2 : MethodDef where
  name := "get_any"
  routeSpecs := [⟨"get", [Seg.param "any"]⟩]
  respMeta := none
  body := fun _ _ => Value.intV 2

/-- Scenario A: the class declaring `get_test` then `get_any`, in that
order. -/
def scenarioAClass : ClassDef where
  fields := []
  ctorParams := []
  init := fun _ => []
  methods := [scenarioAMethod1, scenarioAMethod2]

/-- Scenario B: the provider id of the field dependency. -/
def depOne : ProviderId := "dependency_one"

/-- Scenario B: the provider id of the constructor dependency. -/
def depTwo : ProviderId := "dependency_two"

/-- Scenario B: the host resolver — the field dependency resolves to 1,
the constructor dependency to 2. -/
def scenarioBHost : Resolver := fun p =>
  if p = depOne then Value.intV 1
  else if p = depTwo then Value.intV 2
  else Value.nullV

/-- Scenario B: the class with a field dependency
(`dataclass_defined_dependency = Depends(dependency_one)`), a constructor
dependency (`two = Depends(dependency_two)`, assigned by the constructor
to `init_defined_dependency`), and one handler returning their sum. -/
def scenarioBClass : ClassDef where
  fields := [⟨"dataclass_defined_dependency", some (DefaultExpr.provider depOne)⟩]
  ctorParams := [⟨"two", some (DefaultExpr.provider depTwo)⟩]
  init := fun args =>
    match (args.find? (fun kv => kv.1 = "two")).map (fun kv => kv.2) with
    | some v => [("init_defined_dependency", v)]
    | none => []
  methods := [
    { name := "int_dependencies"
      routeSpecs := [⟨"get", []⟩]
      respMeta := none
      body := fun inst _ =>
        match lookupAttr inst.attrs "dataclass_defined_dependency",
              lookupAttr inst.attrs "init_defined_dependency" with
        | some (Value.intV a), some (Value.intV b) => Value.intV (a + b)
        | _, _ => Value.nullV }]

/-- Scenario C: the method stacked with `/items`, `/items/{p:path}` and
`/database/{p:path}`, returning the captured path when non-empty and the
empty list otherwise. -/
def scenarioCMethod : MethodDef where
  name := "root"
  routeSpecs := [
    ⟨"get", [Seg.lit "items"]⟩,
    ⟨"get", [Seg.lit "items", Seg.pathParam "custom_path"]⟩,
    ⟨"get", [Seg.lit "database", Seg.pathParam "custom_path"]⟩]
  respMeta := none
  body := fun _ params =>
    match lookupParam params "custom_path" with
    | some s => if s.isEmpty then Value.listV [] else Value.objV [("custom_path", Value.strV s)]
    | none => Value.listV []

/-- Scenario C: the class owning the triple-stacked method. -/
def scenarioCClass : ClassDef where
  fields := []
  ctorParams := []
  init := fun _ => []
  methods := [scenarioCMethod]

/-- The class of the `TestClassVar` test: one bare annotated field
`class_var` with no value, and a handler returning whether the attribute
is present on the instance. -/
def classVarClass : ClassDef where
  fields := [⟨"class_var", none⟩]
  ctorParams := []
  init := fun _ => []
  methods := [
    { name := "g"
      routeSpecs := [⟨"get", []⟩]
      respMeta := none
      body := fun inst _ => Value.boolV (lookupAttr inst.attrs "class_var").isSome }]

/-- Scenario D: the `get` method of the registered resource — it returns
the captured `item_path` when non-empty and the empty list otherwise. -/
def scenarioDGet : VerbMethod where
  verb := "get"
  respMeta := none
  body := fun _ params =>
    match lookupParam params "item_path" with
    | some s =>
      if s.isEmpty then Value.listV [] else Value.objV [("item_path", Value.strV s)]
    | none => Value.listV []

/-- Scenario D: the pre-constructed resource instance. -/
def scenarioDResource : ResourceInstance where
  objId := 7
  attrs := []
  verbMethods := [scenarioDGet]

/-- Scenario D: the two registered patterns, `/items/?` (an optional
trailing slash, matching `/items`) and `/items/{item_path:path}`. -/
def scenarioDPatterns : List (List Seg) :=
  [[Seg.lit "items"], [Seg.lit "items", Seg.pathParam "item_path"]]

/-- The `set_responses({}, response_class=PlainTextResponse)` metadata of
the `TestDifferentResponseModule` test. -/
def plainTextMeta : RespMeta := ⟨"dict", some "PlainTextResponse"⟩

/-- The `get` method of the `TestDifferentResponseModule` resource: it
carries `set_responses` metadata and returns a fixed string. -/
def plainTextGet : VerbMethod where
  verb := "get"
  respMeta := some plainTextMeta
  body := fun _ _ => Value.strV "Done!"

/-- The resource of the `TestDifferentResponseModule` test. -/
def plainTextResource : ResourceInstance where
  objId := 9
  attrs := []
  verbMethods := [plainTextGet]

/-- A router supporting the usual HTTP verbs. -/
def defaultRouter : Router := ⟨httpVerbs⟩

/-- A class declaring methods but no route-decorated method. -/
def unroutedClass : ClassDef where
  fields := []
  ctorParams := []
  init := fun _ => []
  methods := [⟨"helper", [], none, fun _ _ => Value.nullV⟩]

/-- A class with one route spec naming an unsupported verb. -/
def badVerbClass : ClassDef where
  fields := []
  ctorParams := []
  init := fun _ => []
  methods := [⟨"brew", [⟨"teapot", [Seg.lit "coffee"]⟩], none, fun _ _ => Value.nullV⟩]

/-- A resource instance whose only method is not named after an HTTP
verb. -/
def noVerbResource : ResourceInstance where
  objId := 0
  attrs := []
  verbMethods := [⟨"handle", none, fun _ _ => Value.nullV⟩]

/-- The route table the lightweight dispatcher builds for scenario D. -/
def scenarioDTable : List ResourceEntry :=
  (addResource scenarioDResource scenarioDPatterns).toOption.getD []

/-- The route table the lightweight dispatcher builds for the
`TestDifferentResponseModule` resource at `/check`. -/
def plainTextTable : List ResourceEntry :=
  (addResource plainTextResource [[Seg.lit "check"]]).toOption.getD []

/-! ## Helper lemmas -/

theorem resolveDeps_scope (host : Resolver) (ps : List ProviderId)
    (sc : RequestScope) :
    (resolveDeps host ps sc).2.resolutionLog = sc.resolutionLog ++ ps ∧
    (resolveDeps host ps sc).2.cache = sc.cache ∧
    (resolveDeps host ps sc).2.nextId = sc.nextId := by
  induction ps generalizing sc with
  | nil => simp [resolveDeps]
  | cons p ps ih => simp [resolveDeps, ih]

theorem constructInstance_scope (host : Resolver) (cd : ClassDescriptor)
    (sc : RequestScope) :
    (constructInstance host cd sc).2.resolutionLog =
      sc.resolutionLog ++
        (cd.ctorDeps.map (fun d => d.provider) ++
          cd.fieldDeps.map (fun d => d.provider)) ∧
    (constructInstance host cd sc).2.cache = sc.cache := by
  unfold constructInstance
  simp [resolveDeps_scope, List.append_assoc,
    (resolveDeps_scope host (cd.ctorDeps.map (fun d => d.provider)) sc).1,
    (resolveDeps_scope host (cd.ctorDeps.map (fun d => d.provider)) sc).2.1]

theorem resolveInstance_cached (host : Resolver) (cd : ClassDescriptor)
    (sc : RequestScope) (i : Instance) (h : sc.cache = some i) :
    resolveInstance host cd sc = (i, sc) := by
  simp [resolveInstance, h]

theorem resolveInstance_cache_set (host : Resolver) (cd : ClassDescriptor)
    (sc : RequestScope) :
    (resolveInstance host cd sc).2.cache = some (resolveInstance host cd sc).1 := by
  unfold resolveInstance
  cases h : sc.cache with
  | some i => simp [h]
  | none => simp [h]

theorem resolveInstance_start_log (host : Resolver) (cd : ClassDescriptor) :
    (resolveInstance host cd RequestScope.start).2.resolutionLog =
      cd.ctorDeps.map (fun d => d.provider) ++
        cd.fieldDeps.map (fun d => d.provider) := by
  have h : (RequestScope.start).cache = none := rfl
  unfold resolveInstance
  simpa [h] using (constructInstance_scope host cd RequestScope.start).1

theorem lookupAttr_append (a b : AttrMap) (key : String) :
    lookupAttr (a ++ b) key =
      match lookupAttr b key with
      | some w => some w
      | none => lookupAttr a key := by
  induction a with
  | nil =>
    cases h : lookupAttr b key <;> simp [lookupAttr, h]
  | cons kv a ih =>
    obtain ⟨k, v⟩ := kv
    cases h : lookupAttr b key with
    | some w => simp [lookupAttr, ih, h]
    | none => simp [lookupAttr, ih, h]

theorem lookupAttr_zip_of_not_mem (names : List String) (vals : List Value)
    (key : String) (h : key ∉ names) :
    lookupAttr (names.zip vals) key = none := by
  induction names generalizing vals with
  | nil => simp [lookupAttr]
  | cons n ns ih =>
    cases vals with
    | nil => simp [lookupAttr]
    | cons v vs =>
      have hk : key ≠ n := fun he => h (he ▸ List.mem_cons_self n ns)
      have hns : key ∉ ns := fun hm => h (List.mem_cons_of_mem n hm)
      have hih := ih vs hns
      simp [List.zip] at hih
      simp [lookupAttr, hk, hih]

theorem routeTableOf_mem (c : ClassDef) (m : MethodDef) (s : RouteSpec)
    (hm : m ∈ c.methods) (hs : s ∈ m.routeSpecs) :
    (⟨s.path, s.verb, m.name, m.body, m.respMeta⟩ : RouteEntry) ∈ routeTableOf c := by
  exact List.mem_flatMap.mpr ⟨m, hm, List.mem_map.mpr ⟨s, hs, rfl⟩⟩

theorem addResource_ok (inst : ResourceInstance) (patterns : List (List Seg))
    (table : List ResourceEntry)
    (h : addResource inst patterns = Except.ok table) :
    table = (inst.verbMethods.filter (fun m => httpVerbs.contains m.verb)).flatMap
      (fun m => patterns.map (fun p =>
        ⟨p, m.verb, inst.objId, m.respMeta, fun q => m.body inst.attrs q⟩)) := by
  simp only [addResource] at h
  by_cases hc :
      (inst.verbMethods.filter (fun m => httpVerbs.contains m.verb)).isEmpty = true
  · rw [if_pos hc] at h
    exact (Except.noConfusion h)
  · rw [if_neg hc] at h
    injection h with h
    exact h.symm

theorem addResource_mem (inst : ResourceInstance) (patterns : List (List Seg))
    (table : List ResourceEntry)
    (h : addResource inst patterns = Except.ok table)
    (m : VerbMethod) (hm : m ∈ inst.verbMethods)
    (hv : httpVerbs.contains m.verb = true)
    (p : List Seg) (hp : p ∈ patterns) :
    (⟨p, m.verb, inst.objId, m.respMeta, fun q => m.body inst.attrs q⟩ :
      ResourceEntry) ∈ table := by
  rw [addResource_ok inst patterns table h]
  exact List.mem_flatMap.mpr
    ⟨m, List.mem_filter.mpr ⟨hm, hv⟩, List.mem_map.mpr ⟨p, hp, rfl⟩⟩

theorem repeatLoop_all_ok (seconds : ℚ) (rex : Bool)
    (calls : Nat → Except String Unit) (hok : ∀ i, calls i = Except.ok ()) :
    ∀ (n idx : Nat), repeatLoop seconds rex calls n idx =
      Except.ok (List.replicate n [TaskEv.invoke, TaskEv.sleep seconds]).flatten := by
  intro n
  induction n with
  | zero => intro idx; simp [repeatLoop]
  | succ n ih =>
    intro idx
    simp [repeatLoop, hok idx, ih (idx + 1), List.replicate_succ, Except.map]

theorem repeatLoop_swallows (seconds : ℚ) (calls : Nat → Except String Unit) :
    ∀ (n idx : Nat), ∃ evs, repeatLoop seconds false calls n idx = Except.ok evs := by
  intro n
  induction n with
  | zero => exact fun idx => ⟨[], rfl⟩
  | succ n ih =>
    intro idx
    obtain ⟨evs, he⟩ := ih (idx + 1)
    cases hc : calls idx with
    | ok u =>
      refine ⟨TaskEv.invoke :: TaskEv.sleep seconds :: evs, ?_⟩
      simp [repeatLoop, hc, he, Except.map]
    | error e =>
      refine ⟨TaskEv.invoke :: TaskEv.sleep seconds :: evs, ?_⟩
      simp [repeatLoop, hc, he, Except.map]

theorem repeatLoop_first_error (seconds : ℚ)
    (calls : Nat → Except String Unit) :
    ∀ (i n idx : Nat) (e : String), i < n →
      (∀ j, j < i → calls (idx + j) = Except.ok ()) →
      calls (idx + i) = Except.error e →
      repeatLoop seconds true calls n idx = Except.error e := by
  intro i
  induction i with
  | zero =>
    intro n idx e hn _ hi
    cases n with
    | zero => exact absurd hn (by omega)
    | succ m =>
      have h0 : calls idx = Except.error e := by simpa using hi
      simp [repeatLoop, h0]
  | succ i ih =>
    intro n idx e hn hprev hi
    cases n with
    | zero => exact absurd hn (by omega)
    | succ m =>
      have h0 : calls idx = Except.ok () := by
        have := hprev 0 (by omega)
        simpa using this
      have hrest : ∀ j, j < i → calls (idx + 1 + j) = Except.ok () := by
        intro j hj
        have := hprev (j + 1) (by omega)
        have harith : idx + (j + 1) = idx + 1 + j := by omega
        rwa [harith] at this
      have hi' : calls (idx + 1 + i) = Except.error e := by
        have harith : idx + (i + 1) = idx + 1 + i := by omega
        rwa [harith] at hi
      have hrec := ih m (idx + 1) e (by omega) hrest hi'
      simp [repeatLoop, h0, hrec, Except.map]

theorem invokeCount_trace (seconds : ℚ) (waitFirst : Bool) :
    ∀ n : Nat, invokeCount
      ((if waitFirst then [TaskEv.sleep seconds] else []) ++
        (List.replicate n [TaskEv.invoke, TaskEv.sleep seconds]).flatten) = n := by
  intro n
  have hbody : ∀ m : Nat,
      invokeCount (List.replicate m [TaskEv.invoke, TaskEv.sleep seconds]).flatten = m := by
    intro m
    induction m with
    | zero => simp [invokeCount]
    | succ m ih =>
      simp only [List.replicate_succ, List.flatten_cons, invokeCount,
        List.countP_cons, List.countP_append] at ih ⊢
      simp at ih ⊢
      omega
  cases waitFirst with
  | false => simpa using hbody n
  | true =>
    have hb := hbody n
    simp only [invokeCount, List.countP_append, List.countP_cons,
      List.countP_nil] at hb ⊢
    simp

theorem constructInstance_attrs (host : Resolver) (cd : ClassDescriptor)
    (sc : RequestScope) :
    ∃ args fvals, (constructInstance host cd sc).1.attrs =
      cd.cls.init args ++ (cd.fieldDeps.map (fun d => d.fieldName)).zip fvals := by
  unfold constructInstance
  exact ⟨_, _, rfl⟩

theorem resolveInstance_start_inst (host : Resolver) (cd : ClassDescriptor) :
    (resolveInstance host cd RequestScope.start).1 =
      (constructInstance host cd RequestScope.start).1 := rfl

theorem findResourceRoute_map_metadata (f : ResourceEntry → Option RespMeta)
    (table : List ResourceEntry) (req : Request) :
    findResourceRoute (table.map (fun e => { e with metadata := f e })) req =
      (findResourceRoute table req).map
        (fun er => ({ er.1 with metadata := f er.1 }, er.2)) := by
  induction table with
  | nil => rfl
  | cons e rest ih =>
    by_cases hv : e.verb = req.verb
    · cases hp : matchPath e.path req.pathSegs <;>
        simp [findResourceRoute, hv, hp, ih]
    · simp [findResourceRoute, hv, ih]

theorem dispatchResource_metadata_irrelevant (f : ResourceEntry → Option RespMeta)
    (table : List ResourceEntry) (req : Request) :
    dispatchResource (table.map (fun e => { e with metadata := f e })) req =
      dispatchResource table req := by
  unfold dispatchResource
  rw [findResourceRoute_map_metadata]
  cases findResourceRoute table req <;> simp

/-! ## Claim theorems -/

/-- C1: in a class composed with two route-decorated methods declared in
order P1 then P2, any request matching both patterns (same verb, both
paths match) is dispatched to the first declared method's handler — match
order equals declaration order, independent of pattern specificity or
method-name ordering. -/
theorem declaration_order_match_wins
    (c : ClassDef) (m1 m2 : MethodDef) (s1 s2 : RouteSpec)
    (host : Resolver) (req : Request) (binds1 : List (String × String))
    (hm : c.methods = [m1, m2])
    (h1 : m1.routeSpecs = [s1]) (h2 : m2.routeSpecs = [s2])
    (hv1 : s1.verb = req.verb)
    (hb1 : matchPath s1.path req.pathSegs = some binds1)
    (_hboth : (matchPath s2.path req.pathSegs).isSome ∧ s2.verb = req.verb) :
    dispatch host (buildDescriptor c) (routeTableOf c) req RequestScope.start =
      some
        (m1.body (resolveInstance host (buildDescriptor c) RequestScope.start).1
          (binds1 ++ req.query),
         (resolveInstance host (buildDescriptor c) RequestScope.start).2) := by
  simp [dispatch, routeTableOf, hm, h1, h2, findRoute, hv1, hb1]

/-- C1 witness: scenario A — `get_test` at `/test` is declared before
`get_any` at `/{any}`; `GET /test` matches both patterns and is dispatched
to `get_test`, whose handler returns 1. -/
theorem declaration_order_match_wins_witness :
    dispatch nullHost (buildDescriptor scenarioAClass) (routeTableOf scenarioAClass)
      ⟨"get", ["test"], []⟩ RequestScope.start =
      some
        (scenarioAMethod1.body
          (resolveInstance nullHost (buildDescriptor scenarioAClass) RequestScope.start).1
          (([] : List (String × String)) ++ []),
         (resolveInstance nullHost (buildDescriptor scenarioAClass) RequestScope.start).2) :=
  declaration_order_match_wins scenarioAClass scenarioAMethod1 scenarioAMethod2
    ⟨"get", [Seg.lit "test"]⟩ ⟨"get", [Seg.param "any"]⟩ nullHost
    ⟨"get", ["test"], []⟩ [] rfl rfl rfl rfl rfl ⟨rfl, rfl⟩

/-- C2: within one request scope, a second instance resolution returns the
identical (object-identity) instance as the first, and the resolution log
after both holds exactly one resolution per constructor dependency and one
per field dependency; concretely, in scenario B (field dependency 1,
constructor dependency 2) the handler reading both returns their sum 3. -/
theorem shared_instance_single_resolution (host : Resolver) (cd : ClassDescriptor) :
    ((resolveInstance host cd
        (resolveInstance host cd RequestScope.start).2).1 =
      (resolveInstance host cd RequestScope.start).1 ∧
     (resolveInstance host cd
        (resolveInstance host cd RequestScope.start).2).2.resolutionLog =
      cd.ctorDeps.map (fun d => d.provider) ++
        cd.fieldDeps.map (fun d => d.provider)) ∧
    (dispatch scenarioBHost (buildDescriptor scenarioBClass)
      (routeTableOf scenarioBClass) ⟨"get", [], []⟩ RequestScope.start).map Prod.fst =
      some (Value.intV 3) := by
  refine ⟨⟨?_, ?_⟩, rfl⟩
  · have h := resolveInstance_cache_set host cd RequestScope.start
    rw [resolveInstance_cached host cd _ _ h]
  · have h := resolveInstance_cache_set host cd RequestScope.start
    rw [resolveInstance_cached host cd _ _ h]
    exact resolveInstance_start_log host cd

/-- C3: every route spec of a method yields a route-table entry adapting
that same method body (same adapter for all stacked patterns), and in
scenario C the method stacked with `/items`, `/items/{p:path}` and
`/database/{p:path}` answers `GET /items` with `[]` and `GET /database/abc`
with `{"custom_path": "abc"}`. -/
theorem stacked_routes_same_method :
    (∀ (c : ClassDef) (m : MethodDef) (s : RouteSpec),
      m ∈ c.methods → s ∈ m.routeSpecs →
      (⟨s.path, s.verb, m.name, m.body, m.respMeta⟩ : RouteEntry) ∈ routeTableOf c) ∧
    (dispatch nullHost (buildDescriptor scenarioCClass) (routeTableOf scenarioCClass)
      ⟨"get", ["items"], []⟩ RequestScope.start).map Prod.fst = some (Value.listV []) ∧
    (dispatch nullHost (buildDescriptor scenarioCClass) (routeTableOf scenarioCClass)
      ⟨"get", ["database", "abc"], []⟩ RequestScope.start).map Prod.fst =
      some (Value.objV [("custom_path", Value.strV "abc")]) :=
  ⟨routeTableOf_mem, rfl, rfl⟩

/-- C3 witness: the `/database/{custom_path:path}` spec of scenario C's
stacked method is registered as an entry adapting that very method. -/
theorem stacked_routes_same_method_witness :
    (⟨[Seg.lit "database", Seg.pathParam "custom_path"], "get", "root",
      scenarioCMethod.body, none⟩ : RouteEntry) ∈ routeTableOf scenarioCClass :=
  stacked_routes_same_method.1 scenarioCClass scenarioCMethod
    ⟨"get", [Seg.lit "database", Seg.pathParam "custom_path"]⟩
    (List.mem_cons_self scenarioCMethod [])
    (by simp [scenarioCMethod])

/-- C4: for a pre-constructed instance passed to the lightweight
dispatcher's register, every HTTP-verb-named method is registered under
every supplied pattern with a handler invoking that exact instance's
method; all entries are bound to the same instance identity; concretely,
registering scenario D's instance under `/items/?` and
`/items/{item_path:path}` answers `GET /items` with `[]` and
`GET /items/1` with `{"item_path": "1"}`. -/
theorem register_all_verbs_all_patterns :
    (∀ (inst : ResourceInstance) (patterns : List (List Seg))
        (table : List ResourceEntry),
      addResource inst patterns = Except.ok table →
      (∀ e ∈ table, e.instId = inst.objId) ∧
      (∀ m ∈ inst.verbMethods, httpVerbs.contains m.verb = true →
        ∀ p ∈ patterns,
          (⟨p, m.verb, inst.objId, m.respMeta, fun q => m.body inst.attrs q⟩ :
            ResourceEntry) ∈ table)) ∧
    addResource scenarioDResource scenarioDPatterns = Except.ok scenarioDTable ∧
    dispatchResource scenarioDTable ⟨"get", ["items"], []⟩ = some (Value.listV []) ∧
    dispatchResource scenarioDTable ⟨"get", ["items", "1"], []⟩ =
      some (Value.objV [("item_path", Value.strV "1")]) := by
  refine ⟨?_, rfl, rfl, rfl⟩
  intro inst patterns table h
  constructor
  · intro e he
    rw [addResource_ok inst patterns table h] at he
    obtain ⟨m, hm, he⟩ := List.mem_flatMap.mp he
    obtain ⟨p, hp, rfl⟩ := List.mem_map.mp he
    rfl
  · intro m hm hv p hp
    exact addResource_mem inst patterns table h m hm hv p hp

/-- C4 witness: in scenario D's table the `get` method is registered under
the second supplied pattern, bound to the registered instance. -/
theorem register_all_verbs_all_patterns_witness :
    (⟨[Seg.lit "items", Seg.pathParam "item_path"], "get", 7, none,
      fun q => scenarioDGet.body scenarioDResource.attrs q⟩ :
      ResourceEntry) ∈ scenarioDTable :=
  (register_all_verbs_all_patterns.1 scenarioDResource scenarioDPatterns
      scenarioDTable rfl).2 scenarioDGet (List.mem_cons_self scenarioDGet [])
    rfl [Seg.lit "items", Seg.pathParam "item_path"] (by simp [scenarioDPatterns])

/-- C5: a class-level field declared with a bare annotation and no value
is excluded from dependency resolution (it is not a field dependency) and,
when the constructor body never assigns it, is absent from the per-request
instance; concretely, the `TestClassVar` handler reporting attribute
presence of `class_var` answers `false`. -/
theorem bare_field_excluded
    (c : ClassDef) (f : FieldDecl) (host : Resolver)
    (_hf : f ∈ c.fields) (_hval : f.value = none)
    (huniq : ∀ g ∈ c.fields, g.name = f.name → g.value = none)
    (hinit : ∀ args, lookupAttr (c.init args) f.name = none) :
    (f.name ∉ (buildDescriptor c).fieldDeps.map (fun d => d.fieldName) ∧
     lookupAttr (resolveInstance host (buildDescriptor c) RequestScope.start).1.attrs
       f.name = none) ∧
    (dispatch nullHost (buildDescriptor classVarClass) (routeTableOf classVarClass)
      ⟨"get", [], []⟩ RequestScope.start).map Prod.fst = some (Value.boolV false) := by
  have hnotdep : f.name ∉ (buildDescriptor c).fieldDeps.map (fun d => d.fieldName) := by
    intro hmem
    obtain ⟨d, hd, hdn⟩ := List.mem_map.mp hmem
    obtain ⟨g, hg, hfg⟩ := List.mem_filterMap.mp hd
    cases hgv : g.value with
    | none => rw [hgv] at hfg; exact Option.noConfusion hfg
    | some de =>
      cases de with
      | literal v => rw [hgv] at hfg; exact Option.noConfusion hfg
      | provider pr =>
        rw [hgv] at hfg
        injection hfg with hfg
        have hgn : g.name = f.name := by rw [← hdn, ← hfg]
        have := huniq g hg hgn
        rw [this] at hgv
        exact Option.noConfusion hgv
  refine ⟨⟨hnotdep, ?_⟩, rfl⟩
  rw [resolveInstance_start_inst]
  obtain ⟨args, fvals, hattrs⟩ :=
    constructInstance_attrs host (buildDescriptor c) RequestScope.start
  rw [hattrs, lookupAttr_append]
  rw [lookupAttr_zip_of_not_mem _ fvals f.name hnotdep]
  exact hinit args

/-- C5 witness: the bare `class_var` field of the `TestClassVar` class is
not a field dependency and is absent from the constructed instance. -/
theorem bare_field_excluded_witness :
    "class_var" ∉ (buildDescriptor classVarClass).fieldDeps.map (fun d => d.fieldName) ∧
    lookupAttr
      (resolveInstance nullHost (buildDescriptor classVarClass) RequestScope.start).1.attrs
      "class_var" = none :=
  (bare_field_excluded classVarClass ⟨"class_var", none⟩ nullHost
    (List.mem_cons_self _ [] ) rfl
    (by intro g hg _; simp [classVarClass] at hg; rw [hg])
    (fun _ => rfl)).1

/-- C6: `shape_response` / `set_responses` metadata is attached to every
registered pattern of the decorated method — in the composition engine
every route spec's entry carries the method's metadata, and in the
lightweight dispatcher every entry of a verb method under every pattern
carries that method's metadata — and the metadata is never consulted at
call time (rewriting it on every entry leaves dispatch unchanged);
concretely, the `PlainTextResponse` resource's entry at `/check` carries
its metadata and the handler's return value is delivered unwrapped. -/
theorem response_metadata_forwarded :
    (∀ (c : ClassDef) (m : MethodDef) (s : RouteSpec),
      m ∈ c.methods → s ∈ m.routeSpecs →
      ∃ e ∈ routeTableOf c, e.path = s.path ∧ e.verb = s.verb ∧
        e.metadata = m.respMeta) ∧
    (∀ (inst : ResourceInstance) (patterns : List (List Seg))
        (table : List ResourceEntry),
      addResource inst patterns = Except.ok table →
      ∀ e ∈ table, ∃ m ∈ inst.verbMethods, e.verb = m.verb ∧
        e.metadata = m.respMeta) ∧
    (∀ (f : ResourceEntry → Option RespMeta) (table : List ResourceEntry)
        (req : Request),
      dispatchResource (table.map (fun e => { e with metadata := f e })) req =
        dispatchResource table req) ∧
    addResource plainTextResource [[Seg.lit "check"]] = Except.ok plainTextTable ∧
    (∀ e ∈ plainTextTable, e.metadata = some plainTextMeta) ∧
    dispatchResource plainTextTable ⟨"get", ["check"], []⟩ =
      some (Value.strV "Done!") := by
  refine ⟨?_, ?_, dispatchResource_metadata_irrelevant, rfl, ?_, rfl⟩
  · intro c m s hm hs
    exact ⟨⟨s.path, s.verb, m.name, m.body, m.respMeta⟩,
      routeTableOf_mem c m s hm hs, rfl, rfl, rfl⟩
  · intro inst patterns table h e he
    rw [addResource_ok inst patterns table h] at he
    obtain ⟨m, hm, he⟩ := List.mem_flatMap.mp he
    obtain ⟨p, hp, rfl⟩ := List.mem_map.mp he
    exact ⟨m, (List.mem_filter.mp hm).1, rfl, rfl⟩
  · intro e he
    have : plainTextTable = [⟨[Seg.lit "check"], "get", 9, some plainTextMeta,
        fun q => plainTextGet.body plainTextResource.attrs q⟩] := rfl
    rw [this] at he
    simp only [List.mem_singleton] at he
    rw [he]

/-- C6 witness: the composition-engine half applied to scenario C's
stacked method — the `/items` spec's entry carries the method's (absent)
metadata. -/
theorem response_metadata_forwarded_witness :
    ∃ e ∈ routeTableOf scenarioCClass, e.path = [Seg.lit "items"] ∧
      e.verb = "get" ∧ e.metadata = scenarioCMethod.respMeta :=
  response_metadata_forwarded.1 scenarioCClass scenarioCMethod
    ⟨"get", [Seg.lit "items"]⟩ (List.mem_cons_self scenarioCMethod [])
    (by simp [scenarioCMethod])

/-- C7: composition fails fast at composition time — `compose_view`
errors when the class declares zero route-decorated methods and when any
route spec names a verb the router does not support, and the lightweight
dispatcher's register errors when the instance has no HTTP-verb-named
method. -/
theorem composition_fails_fast :
    (∀ (r : Router) (c : ClassDef),
      (∀ m ∈ c.methods, m.routeSpecs = []) →
      composeView r c = Except.error CompositionError.noRoutedMethods) ∧
    (∀ (r : Router) (c : ClassDef) (m : MethodDef) (s : RouteSpec),
      m ∈ c.methods → s ∈ m.routeSpecs →
      r.supportedVerbs.contains s.verb = false →
      ∃ err, composeView r c = Except.error err) ∧
    (∀ (inst : ResourceInstance) (patterns : List (List Seg)),
      (∀ m ∈ inst.verbMethods, httpVerbs.contains m.verb = false) →
      addResource inst patterns = Except.error CompositionError.noVerbMethods) := by
  refine ⟨?_, ?_, ?_⟩
  · intro r c h
    have hfil : c.methods.filter (fun m => !m.routeSpecs.isEmpty) = [] := by
      rw [List.filter_eq_nil_iff]
      intro m hm
      simp [h m hm]
    simp [composeView, hfil]
  · intro r c m s hm hs hverb
    have hmem : (⟨s.path, s.verb, m.name, m.body, m.respMeta⟩ : RouteEntry) ∈
        routeTableOf c := routeTableOf_mem c m s hm hs
    have hfind : ((routeTableOf c).find?
        (fun e => !(r.supportedVerbs.contains e.verb))).isSome := by
      rw [List.find?_isSome]
      refine ⟨_, hmem, ?_⟩
      have := hverb
      simp at this
      simpa using this
    have hmf : m ∈ c.methods.filter (fun m => !m.routeSpecs.isEmpty) := by
      refine List.mem_filter.mpr ⟨hm, ?_⟩
      cases hsp : m.routeSpecs with
      | nil => rw [hsp] at hs; exact absurd hs (List.not_mem_nil s)
      | cons a l => simp
    have hne : (c.methods.filter (fun m => !m.routeSpecs.isEmpty)).isEmpty = false := by
      cases hfe : (c.methods.filter (fun m => !m.routeSpecs.isEmpty)).isEmpty
      · rfl
      · rw [List.isEmpty_iff] at hfe
        rw [hfe] at hmf
        exact absurd hmf (List.not_mem_nil m)
    obtain ⟨e, he⟩ := Option.isSome_iff_exists.mp hfind
    refine ⟨CompositionError.unsupportedRouteVerb e.verb, ?_⟩
    have hni : ¬((c.methods.filter (fun m => !m.routeSpecs.isEmpty)).isEmpty = true) := by
      rw [hne]
      exact Bool.false_ne_true
    simp only [composeView]
    rw [if_neg hni, he]
  · intro inst patterns h
    have hfil : inst.verbMethods.filter (fun m => httpVerbs.contains m.verb) = [] := by
      rw [List.filter_eq_nil_iff]
      intro m hm
      have := h m hm
      simpa using this
    have hemp : (inst.verbMethods.filter (fun m => httpVerbs.contains m.verb)).isEmpty = true := by
      rw [hfil]
      rfl
    simp only [addResource]
    rw [if_pos hemp]

/-- C7 witness: a class with no route-decorated method, a class with a
route spec naming the unsupported verb `teapot`, and a resource with no
verb-named method each fail at composition time. -/
theorem composition_fails_fast_witness :
    composeView defaultRouter unroutedClass =
      Except.error CompositionError.noRoutedMethods ∧
    (∃ err, composeView defaultRouter badVerbClass = Except.error err) ∧
    addResource noVerbResource [[Seg.lit "x"]] =
      Except.error CompositionError.noVerbMethods :=
  ⟨composition_fails_fast.1 defaultRouter unroutedClass
      (by intro m hm; simp [unroutedClass] at hm; rw [hm]),
   composition_fails_fast.2.1 defaultRouter badVerbClass
      ⟨"brew", [⟨"teapot", [Seg.lit "coffee"]⟩], none, fun _ _ => Value.nullV⟩
      ⟨"teapot", [Seg.lit "coffee"]⟩ (List.mem_cons_self _ [])
      (List.mem_cons_self _ []) rfl,
   composition_fails_fast.2.2 noVerbResource [[Seg.lit "x"]]
      (by intro m hm; simp [noVerbResource] at hm; rw [hm]; rfl)⟩

/-- C8: a task wrapped with a positive `max_repetitions` over a function
that raises no exception terminates with a trace invoking the function
exactly `max_repetitions` times, a sleep of the configured seconds after
each invocation (hence between any two consecutive invocations), and one
additional leading sleep exactly when `wait_first` is set. -/
theorem repeat_every_max_repetitions
    (seconds : ℚ) (waitFirst raiseExceptions : Bool)
    (calls : Nat → Except String Unit) (maxRepetitions : Nat)
    (_hpos : 0 < maxRepetitions) (hok : ∀ i, calls i = Except.ok ()) :
    repeatEveryRun seconds waitFirst raiseExceptions calls maxRepetitions =
      Except.ok ((if waitFirst then [TaskEv.sleep seconds] else []) ++
        (List.replicate maxRepetitions [TaskEv.invoke, TaskEv.sleep seconds]).flatten) ∧
    invokeCount ((if waitFirst then [TaskEv.sleep seconds] else []) ++
        (List.replicate maxRepetitions [TaskEv.invoke, TaskEv.sleep seconds]).flatten) =
      maxRepetitions := by
  refine ⟨?_, invokeCount_trace seconds waitFirst maxRepetitions⟩
  unfold repeatEveryRun
  rw [repeatLoop_all_ok seconds raiseExceptions calls hok maxRepetitions 0]
  rfl

/-- C8 witness: three repetitions of an exception-free function with
`wait_first` set produce the leading sleep and three invoke-then-sleep
rounds. -/
theorem repeat_every_max_repetitions_witness :
    repeatEveryRun (1 / 100) true false (fun _ => Except.ok ()) 3 =
      Except.ok ((if true then [TaskEv.sleep (1 / 100)] else []) ++
        (List.replicate 3 [TaskEv.invoke, TaskEv.sleep (1 / 100)]).flatten) ∧
    invokeCount ((if true then [TaskEv.sleep (1 / 100)] else []) ++
        (List.replicate 3 [TaskEv.invoke, TaskEv.sleep (1 / 100)]).flatten) = 3 :=
  repeat_every_max_repetitions (1 / 100) true false (fun _ => Except.ok ()) 3
    (by decide) (fun _ => rfl)

/-- C9: with `raise_exceptions` left false an exception of the wrapped
function never propagates to the awaiter (the run always ends in `ok`),
and with `raise_exceptions` true the first exception raised propagates
unchanged as the run's error. -/
theorem repeat_every_exception_policy
    (seconds : ℚ) (waitFirst : Bool) (calls : Nat → Except String Unit) :
    (∀ maxRepetitions, ∃ evs,
      repeatEveryRun seconds waitFirst false calls maxRepetitions = Except.ok evs) ∧
    (∀ (maxRepetitions i : Nat) (e : String), i < maxRepetitions →
      (∀ j, j < i → calls j = Except.ok ()) →
      calls i = Except.error e →
      repeatEveryRun seconds waitFirst true calls maxRepetitions =
        Except.error e) := by
  constructor
  · intro n
    obtain ⟨evs, he⟩ := repeatLoop_swallows seconds calls n 0
    refine ⟨(if waitFirst then [TaskEv.sleep seconds] else []) ++ evs, ?_⟩
    simp [repeatEveryRun, he, Except.map]
  · intro n i e hn hprev hi
    have hprev0 : ∀ j, j < i → calls (0 + j) = Except.ok () := by
      intro j hj
      simpa using hprev j hj
    have hi0 : calls (0 + i) = Except.error e := by simpa using hi
    have hrun := repeatLoop_first_error seconds calls i n 0 e hn hprev0 hi0
    simp [repeatEveryRun, hrun, Except.map]

/-- C9 witness: an always-raising function — the default-policy run over
three repetitions ends in `ok`, and the raising-policy run propagates the
`ValueError` message unchanged. -/
theorem repeat_every_exception_policy_witness :
    (∃ evs, repeatEveryRun (1 / 100) false false
      (fun _ => Except.error "error") 3 = Except.ok evs) ∧
    repeatEveryRun (1 / 100) false true (fun _ => Except.error "error") 3 =
      Except.error "error" :=
  ⟨(repeat_every_exception_policy (1 / 100) false
      (fun _ => Except.error "error")).1 3,
   (repeat_every_exception_policy (1 / 100) false
      (fun _ => Except.error "error")).2 3 0 "error" (by decide)
      (fun j hj => absurd hj (by omega)) rfl⟩

/-- C10: `record_timing` raises `ValueError` when the request state holds
no timer attribute (or the attribute reads as `None`), raises `ValueError`
when the attribute is present but not a `_TimingStats` instance, emits via
the timer otherwise, and succeeds exactly when a `_TimingStats` timer is
present. -/
theorem record_timing_requires_timer
    (st : Option TimerAttrVal) (note : Option String) :
    record_timing none note = Except.error "No timer present on request" ∧
    record_timing (some TimerAttrVal.noneVal) note =
      Except.error "No timer present on request" ∧
    record_timing (some TimerAttrVal.otherVal) note =
      Except.error "Timer should be of an instance of TimingStats" ∧
    (∀ t, record_timing (some (TimerAttrVal.timerVal t)) note =
      Except.ok (t.emit note)) ∧
    ((∃ recs, record_timing st note = Except.ok recs) ↔
      ∃ t, st = some (TimerAttrVal.timerVal t)) := by
  refine ⟨rfl, rfl, rfl, fun t => rfl, ?_⟩
  cases st with
  | none => simp [record_timing, getattrTimer]
  | some v => cases v <;> simp [record_timing, getattrTimer]

end FastApiRestful
